import Mathlib

/-!
Verification development for the honeybee `AnalysisPoint` result store
(`honeybee/radiance/analysispoint.py`): the per-point illuminance table keyed
by (source, state, hour), the blinds-state selector, and the annual metric
reducers.  Python floats are modelled as rationals, hours of the year as
naturals, and the per-state hour dictionary (a `defaultdict` returning
`[None, None]`) as an association list with an explicit insert-on-read
operation.  Python exceptions are modelled by the `Err` type.
-/

/-- Python exception kinds raised by the analysis-point code. -/
inductive Err : Type
  /-- Python `ValueError('Invalid source input')` from `sourceId`. -/
  | invalidSource
  /-- Python `ValueError('Invalid state input')` from `blindStateId`. -/
  | invalidState
  /-- Python `ValueError('Invalid hoy input')` from the readers' dead `except KeyError` arm. -/
  | invalidHoy
  /-- an uncaught `IndexError` from raw list indexing. -/
  | indexError
  /-- an uncaught `KeyError` from raw dict indexing. -/
  | keyError
  /-- Python `ValueError('Invalid input')` re-raised by the `except Exception` arms. -/
  | valueError
  /-- Python `AssertionError` from a failed `assert`. -/
  | assertError
  /-- Python `ZeroDivisionError` from dividing by a zero hour count. -/
  | zeroDiv
  deriving DecidableEq

/-- A stored sample `[total, direct]`: each slot is `None` until written. -/
abbrev Sample := Option ℚ × Option ℚ

/-- The per-(source, state) hour dictionary: association list keyed by hour. -/
abbrev HourMap := List (ℕ × Sample)

/-- Dictionary lookup on an `HourMap`. -/
def hmLookup (m : HourMap) (h : ℕ) : Option Sample :=
  match m with
  | [] => none
  | p :: rest => if p.1 = h then some p.2 else hmLookup rest h

/-- Dictionary assignment on an `HourMap`: replace in place or append. -/
def hmInsert (m : HourMap) (h : ℕ) (v : Sample) : HourMap :=
  match m with
  | [] => [(h, v)]
  | p :: rest => if p.1 = h then (h, v) :: rest else p :: hmInsert rest h v

/-- Python `defaultdict(double)` item access: a missing hour is created as
`[None, None]` and returned; the (possibly grown) dictionary is returned too. -/
def defaultGet (m : HourMap) (h : ℕ) : Sample × HourMap :=
  match hmLookup m h with
  | some s => (s, m)
  | none => ((none, none), m ++ [(h, (none, none))])

/-- Python `list.index`-style position of the first occurrence (list length if
absent, as `findIdx` behaves). -/
def findPos {α : Type} [DecidableEq α] (x : α) : List α → ℕ
  | [] => 0
  | y :: rest => if y = x then 0 else findPos x rest + 1

/-- Python `l[i] = f l[i]` on a Lean list, a no-op when out of range. -/
def listModify {α : Type} (l : List α) (i : ℕ) (f : α → α) : List α :=
  match l.get? i with
  | none => l
  | some x => l.set i (f x)

/-- Insert into a sorted list (helper for `sorted(keys)`). -/
def insertSorted (x : ℕ) : List ℕ → List ℕ
  | [] => [x]
  | y :: ys => if x ≤ y then x :: y :: ys else y :: insertSorted x ys

/-- Python `sorted` on a list of hours. -/
def sortNat (l : List ℕ) : List ℕ := l.foldr insertSorted []

/-- Python list indexing, allowing negative indices from the end. -/
def pyIndex (len : ℕ) (i : ℤ) : Option ℕ :=
  if 0 ≤ i then (if i < (len : ℤ) then some i.toNat else none)
  else (if -i ≤ (len : ℤ) then some (len - (-i).toNat) else none)

/-- The `AnalysisPoint` state: location and direction, the source registry
`_sources` (name and state-name list, in id order), the sample table
`_values` (`_values[sid][stateid]` is an `HourMap`), and `_isDirectLoaded`. -/
structure AnalysisPoint : Type where
  loc : ℚ × ℚ × ℚ
  dir : ℚ × ℚ × ℚ
  _sources : List (Option String × List (Option String))
  _values : List (List HourMap)
  _isDirectLoaded : Bool
  deriving DecidableEq

/-- A freshly constructed point: no sources, no values, no direct data. -/
def emptyAP : AnalysisPoint := ⟨(0, 0, 0), (0, 0, 0), [], [], false⟩

/-- Python `self.hoys`: sorted hour keys of the first source's first state, `[]`
when no values are loaded. -/
def AnalysisPoint.hoys (ap : AnalysisPoint) : List ℕ :=
  match ap._values.get? 0 with
  | none => []
  | some sts =>
    match sts.get? 0 with
    | none => []
    | some m => sortNat (m.map Prod.fst)

/-- Source-name resolution `sourceId`: the stored id is the insertion
position; an unknown name raises `ValueError('Invalid source input')`. -/
def AnalysisPoint.sourceId (ap : AnalysisPoint) (source : Option String) : Except Err ℕ :=
  let idx := findPos source (ap._sources.map Prod.fst)
  if idx < ap._sources.length then .ok idx else .error .invalidSource

/-- Is `str(state)` made of digits?  (`str(None) = "None"` is not.) -/
def isDigitStr : Option String → Bool
  | none => false
  | some s => s.length > 0 && s.toList.all Char.isDigit

/-- Numeric value of a digit string (`int(state)`), read in base 10. -/
def digitVal : Option String → ℕ
  | none => 0
  | some s => s.toList.foldl (fun acc c => acc * 10 + (c.toNat - 48)) 0

/-- Python `blindStateId`: a digit-string state is used verbatim as the index with no
range check; otherwise the state name is resolved by list position, raising
`ValueError('Invalid state input')` when absent (and a raw `KeyError` when the
source itself is unknown). -/
def AnalysisPoint.blindStateId (ap : AnalysisPoint) (source state : Option String) :
    Except Err ℕ :=
  if isDigitStr state then .ok (digitVal state)
  else
    match ap._sources.find? (fun s => s.1 = source) with
    | none => .error .keyError
    | some s =>
      let idx := findPos state s.2
      if idx < s.2.length then .ok idx else .error .invalidState

/-- Python `_createDataStructure`: lazily register the source (id = insertion order)
and the state (id = position in the append-only state list), creating an empty
hour dictionary for a new state; returns the updated point with both ids. -/
def AnalysisPoint._createDataStructure (ap : AnalysisPoint) (source state : Option String) :
    AnalysisPoint × ℕ × ℕ :=
  let ap1 := if source ∈ ap._sources.map Prod.fst then ap
    else { ap with _sources := ap._sources ++ [(source, [])],
                   _values := ap._values ++ [[]] }
  let sid := findPos source (ap1._sources.map Prod.fst)
  let states := ((ap1._sources.get? sid).map Prod.snd).getD []
  let ap2 := if state ∈ states then ap1
    else { ap1 with
            _sources := listModify ap1._sources sid (fun s => (s.1, s.2 ++ [state])),
            _values := listModify ap1._values sid (fun sts => sts ++ [([] : HourMap)]) }
  let states2 := ((ap2._sources.get? sid).map Prod.snd).getD []
  (ap2, sid, findPos state states2)

/-- Replace the hour dictionary at `(sid, stateid)`. -/
def setSeries (ap : AnalysisPoint) (sid stateid : ℕ) (m : HourMap) : AnalysisPoint :=
  { ap with _values := listModify ap._values sid (fun sts => sts.set stateid m) }

/-- Python `setValue`: write one scalar into the total (or direct) slot for
`(source, state, hour)`, creating registry entries as needed; a direct write
permanently sets `_isDirectLoaded`.  The slot assignment goes through the
`defaultdict`, so a fresh hour starts as `[None, None]`. -/
def AnalysisPoint.setValue (ap : AnalysisPoint) (value : ℚ) (hoy : ℕ)
    (source state : Option String) (isDirect : Bool) : AnalysisPoint :=
  let r := ap._createDataStructure source state
  let ap1 := r.1
  let sid := r.2.1
  let stateid := r.2.2
  let ap2 := if isDirect then { ap1 with _isDirectLoaded := true } else ap1
  let m := (((ap2._values.get? sid).getD []).get? stateid).getD []
  let s := (hmLookup m hoy).getD (none, none)
  let s2 := if isDirect then (s.1, some value) else (some value, s.2)
  setSeries ap2 sid stateid (hmInsert m hoy s2)

/-- Python `setCoupledValue`: write `(total, direct)` together for one hour and set
`_isDirectLoaded`.  (The `ValueError` for tuples not of length two cannot arise
here because the input is typed as a pair.) -/
def AnalysisPoint.setCoupledValue (ap : AnalysisPoint) (value : ℚ × ℚ) (hoy : ℕ)
    (source state : Option String) : AnalysisPoint :=
  let r := ap._createDataStructure source state
  let ap1 := r.1
  let sid := r.2.1
  let stateid := r.2.2
  let m := (((ap1._values.get? sid).getD []).get? stateid).getD []
  let ap2 := setSeries ap1 sid stateid (hmInsert m hoy (some value.1, some value.2))
  { ap2 with _isDirectLoaded := true }

/-- Resolve `(source, state)` to the hour dictionary, exactly as the scalar
readers index `self._values[sid][stateid]`: an unresolved name raises the
corresponding `ValueError`, an out-of-range numeric state id raises the raw
`IndexError`. -/
def AnalysisPoint.resolveSeries (ap : AnalysisPoint) (source state : Option String) :
    Except Err (ℕ × ℕ × HourMap) := do
  let sid ← ap.sourceId source
  let stateid ← ap.blindStateId source state
  match ap._values.get? sid with
  | none => .error .indexError
  | some sts =>
    match sts.get? stateid with
    | none => .error .indexError
    | some m => .ok (sid, stateid, m)

/-- Python `value`: total value for one hour.  `self._values[sid][stateid][hoy]` is a
`defaultdict` access, so a missing hour is created as `[None, None]` and its
total slot (`None`) is returned; the `except KeyError` arm that would raise
`ValueError('Invalid hoy input')` can never fire. -/
def AnalysisPoint.value (ap : AnalysisPoint) (hoy : ℕ) (source state : Option String) :
    Except Err (Option ℚ × AnalysisPoint) := do
  let (sid, stateid, m) ← ap.resolveSeries source state
  let r := defaultGet m hoy
  .ok (r.1.1, setSeries ap sid stateid r.2)

/-- Python `directValue`: direct value for one hour; same dead `except KeyError` arm. -/
def AnalysisPoint.directValue (ap : AnalysisPoint) (hoy : ℕ) (source state : Option String) :
    Except Err (Option ℚ × AnalysisPoint) := do
  let (sid, stateid, m) ← ap.resolveSeries source state
  let r := defaultGet m hoy
  .ok (r.1.2, setSeries ap sid stateid r.2)

/-- Python `coupledValue`: the `[total, direct]` pair for one hour. -/
def AnalysisPoint.coupledValue (ap : AnalysisPoint) (hoy : ℕ) (source state : Option String) :
    Except Err (Sample × AnalysisPoint) := do
  let (sid, stateid, m) ← ap.resolveSeries source state
  let r := defaultGet m hoy
  .ok (r.1, setSeries ap sid stateid r.2)

/-- Read a batch of hours off one hour dictionary, threading the
`defaultdict` growth through the traversal. -/
def seriesLoop (m : HourMap) : List ℕ → List Sample × HourMap
  | [] => ([], m)
  | h :: rest =>
    let r := defaultGet m h
    let r2 := seriesLoop r.2 rest
    (r.1 :: r2.1, r2.2)

/-- Python `values`: batch total reader (`tuple(... for hoy in hoys)`). -/
def AnalysisPoint.values (ap : AnalysisPoint) (hoys : List ℕ) (source state : Option String) :
    Except Err (List (Option ℚ) × AnalysisPoint) := do
  let (sid, stateid, m) ← ap.resolveSeries source state
  let r := seriesLoop m hoys
  .ok (r.1.map Prod.fst, setSeries ap sid stateid r.2)

/-- Python `directValues`: batch direct reader. -/
def AnalysisPoint.directValues (ap : AnalysisPoint) (hoys : List ℕ) (source state : Option String) :
    Except Err (List (Option ℚ) × AnalysisPoint) := do
  let (sid, stateid, m) ← ap.resolveSeries source state
  let r := seriesLoop m hoys
  .ok (r.1.map Prod.snd, setSeries ap sid stateid r.2)

/-- Python `coupledValues`: batch coupled reader. -/
def AnalysisPoint.coupledValues (ap : AnalysisPoint) (hoys : List ℕ) (source state : Option String) :
    Except Err (List Sample × AnalysisPoint) := do
  let (sid, stateid, m) ← ap.resolveSeries source state
  let r := seriesLoop m hoys
  .ok (r.1, setSeries ap sid stateid r.2)

/-- Python `longestStateIds`: vector `i` assigns `min(stateCount - 1, i)` to
each source, for `i` in `range(max(stateCounts - 1) + 1)`; `max` of an empty
source registry raises (`none`).  The Python iterates `self._sources.iteritems()`,
and a Python 2 dict iterates in hash-table order — an implementation detail the
code does not pin down — so the embedding takes the iteration order `srcs` as
an explicit argument; a faithful instantiation supplies some permutation of the
registry `_sources`, and the vectors' positions refer to that order, not to
source ids. -/
def longestStateIdsOf (srcs : List (Option String × List (Option String))) :
    Option (List (List ℤ)) :=
  let states := srcs.map (fun s => (s.2.length : ℤ) - 1)
  match states.max? with
  | none => none
  | some mx =>
    some ((List.range (mx + 1).toNat).map (fun (i : ℕ) => states.map (fun s => min s (i : ℤ))))

/-- One `total += t; direct += d` step with the `except TypeError: pass`
swallow: an absent total skips the whole addition, an absent direct (on either
side) skips only the direct addition and leaves the accumulator as it was. -/
def addSample (acc : ℚ × Option ℚ) (t d : Option ℚ) : ℚ × Option ℚ :=
  match t with
  | none => acc
  | some tv =>
    match acc.2, d with
    | some dv, some dd => (acc.1 + tv, some (dv + dd))
    | _, _ => (acc.1 + tv, acc.2)

/-- One `self._values[sid][stateid][hoy]` access inside the combined readers:
any lookup failure is re-raised as `ValueError('Invalid input')`, and the
`defaultdict` growth is written back into the store. -/
def AnalysisPoint.readSampleById (ap : AnalysisPoint) (sid : ℕ) (stateid : ℤ) (hoy : ℕ) :
    Except Err (Sample × AnalysisPoint) :=
  match ap._values.get? sid with
  | none => .error .valueError
  | some sts =>
    match pyIndex sts.length stateid with
    | none => .error .valueError
    | some si =>
      match sts.get? si with
      | none => .error .valueError
      | some m =>
        let r := defaultGet m hoy
        .ok (r.1, { ap with _values := listModify ap._values sid (fun s => s.set si r.2) })

/-- The per-source accumulation loop shared by `combinedValueById` and
`combinedValuesById`: state id `-1` contributes `t = 0, d = 0` without touching
the store; anything else reads the sample and folds it with `addSample`. -/
def AnalysisPoint.combinedLoop (hoy : ℕ) :
    AnalysisPoint → (ℚ × Option ℚ) → ℕ → List ℤ →
    Except Err ((ℚ × Option ℚ) × AnalysisPoint)
  | ap, acc, _, [] => .ok (acc, ap)
  | ap, acc, sid, stateid :: rest =>
    if stateid = -1 then
      AnalysisPoint.combinedLoop hoy ap (addSample acc (some 0) (some 0)) (sid + 1) rest
    else
      match ap.readSampleById sid stateid hoy with
      | .error e => .error e
      | .ok (s, ap1) => AnalysisPoint.combinedLoop hoy ap1 (addSample acc s.1 s.2) (sid + 1) rest

/-- Python `combinedValueById`: sum totals (and, when `_isDirectLoaded`, directs)
across all sources at one hour under a one-id-per-source vector; an omitted or
empty vector defaults to state 0 everywhere; a length mismatch asserts. -/
def AnalysisPoint.combinedValueById (ap : AnalysisPoint) (hoy : ℕ)
    (idsIn : Option (List ℤ)) : Except Err ((ℚ × Option ℚ) × AnalysisPoint) :=
  let ids := match idsIn with
    | none => List.replicate ap._sources.length 0
    | some [] => List.replicate ap._sources.length 0
    | some l => l
  if ap._sources.length ≠ ids.length then .error .assertError
  else ap.combinedLoop hoy (0, if ap._isDirectLoaded then some 0 else none) 0 ids

/-- The generator body of `combinedValuesById`: for each listed hour, the row
`blindsStateIds[hoy]` is selected by the *hour value* (an out-of-range hour
raises the raw `IndexError`) and folded with `combinedLoop`. -/
def AnalysisPoint.combinedValuesLoop (matrix : List (List ℤ)) (dirValue : Option ℚ) :
    AnalysisPoint → List ℕ → Except Err (List (ℚ × Option ℚ) × AnalysisPoint)
  | ap, [] => .ok ([], ap)
  | ap, hoy :: rest =>
    match matrix.get? hoy with
    | none => .error .indexError
    | some row =>
      match ap.combinedLoop hoy (0, dirValue) 0 row with
      | .error e => .error e
      | .ok (pair, ap1) =>
        match AnalysisPoint.combinedValuesLoop matrix dirValue ap1 rest with
        | .error e => .error e
        | .ok (pairs, ap2) => .ok (pair :: pairs, ap2)

/-- Python `combinedValuesById`: lazy sequence of `(total, direct)` pairs over the
listed hours (defaulting to `self.hoys`); an omitted or empty matrix defaults
to state 0 for every source and hour; `len(hoys) == len(matrix)` asserts. -/
def AnalysisPoint.combinedValuesById (ap : AnalysisPoint) (hoysIn : Option (List ℕ))
    (matrixIn : Option (List (List ℤ))) :
    Except Err (List (ℚ × Option ℚ) × AnalysisPoint) :=
  let hoys := match hoysIn with
    | none => ap.hoys
    | some [] => ap.hoys
    | some l => l
  let matrix := match matrixIn with
    | none => List.replicate hoys.length (List.replicate ap._sources.length 0)
    | some [] => List.replicate hoys.length (List.replicate ap._sources.length 0)
    | some l => l
  if hoys.length ≠ matrix.length then .error .assertError
  else ap.combinedValuesLoop matrix (if ap._isDirectLoaded then some 0 else none) hoys

/-- Collect `results[count] = tuple(combinedValuesById(hoys, [state] * len(hoys)))`
for each candidate combination, threading the store. -/
def AnalysisPoint.buildResults (hoys : List ℕ) :
    AnalysisPoint → List (List ℤ) →
    Except Err (List (List (ℚ × Option ℚ)) × AnalysisPoint)
  | ap, [] => .ok ([], ap)
  | ap, comb :: rest =>
    match ap.combinedValuesById (some hoys) (some (List.replicate hoys.length comb)) with
    | .error e => .error e
    | .ok (vals, ap1) =>
      match AnalysisPoint.buildResults hoys ap1 rest with
      | .error e => .error e
      | .ok (rs, ap2) => .ok (vals :: rs, ap2)

/-- The inner candidate walk of `blindsState` for one hour `h`:
`results[state][h]` is read (by the hour *value*, raising `IndexError` when out
of range), the logic is applied, and either the first failing candidate is
returned (`Sum.inr (state, ill, ill_dir)`) or the walk falls through to the
`for ... else` arm with the last candidate's values (`Sum.inl`). -/
def selectLoop (logic : ℚ → Option ℚ → ℕ → Bool) (h : ℕ) :
    List (List (ℚ × Option ℚ)) → ℕ →
    Except Err (Sum (ℚ × Option ℚ) (ℕ × ℚ × Option ℚ))
  | [], _ => .error .indexError
  | [r], state =>
    match r.get? h with
    | none => .error .indexError
    | some pair =>
      if !(logic pair.1 pair.2 h) then .ok (.inr (state, pair.1, pair.2))
      else .ok (.inl (pair.1, pair.2))
  | r :: rest, state =>
    match r.get? h with
    | none => .error .indexError
    | some pair =>
      if !(logic pair.1 pair.2 h) then .ok (.inr (state, pair.1, pair.2))
      else selectLoop logic h rest (state + 1)

/-- The per-hour update loop of `blindsState` over the four parallel arrays
(all indexed by the hour *value*). -/
def selectAll (results : List (List (ℚ × Option ℚ))) (logic : ℚ → Option ℚ → ℕ → Bool) :
    List ℕ → (List ℕ × List (Option ℚ) × List (Option ℚ) × List ℤ) →
    Except Err (List ℕ × List (Option ℚ) × List (Option ℚ) × List ℤ)
  | [], arrs => .ok arrs
  | h :: rest, (bIdx, ill, dir, succ) =>
    match selectLoop logic h results 0 with
    | .error e => .error e
    | .ok (.inr (state, i, d)) =>
      selectAll results logic rest
        (bIdx.set h state, ill.set h (some i), dir.set h d,
         if 0 < state then succ.set h 1 else succ)
    | .ok (.inl (i, d)) =>
      selectAll results logic rest (bIdx, ill.set h (some i), dir.set h d, succ.set h (-1))

/-- Python `blindsState` for the default candidate list (`blindsStateIds = None`, so
the candidates are `longestStateIds`; the name-resolution branch for explicit
candidates is not needed by any claim and is not modelled).  Because the
candidates come from iterating the `_sources` dict, the dict's iteration order
is taken as the explicit `iterOrder` argument (a permutation of the registry;
for a single-source registry it is that singleton).  `logic` is the pluggable
control predicate `(total, direct, hoy) → bool`; the search accepts the first
candidate on which it is `False`.  Returns the chosen combination, candidate
index, total, direct, and success flag per hour, plus the store as mutated by
the reads. -/
def AnalysisPoint.blindsState (ap : AnalysisPoint)
    (iterOrder : List (Option String × List (Option String)))
    (hoysIn : Option (List ℕ)) (logic : ℚ → Option ℚ → ℕ → Bool) :
    Except Err ((List (List ℤ) × List ℕ × List (Option ℚ) × List (Option ℚ) × List ℤ) ×
      AnalysisPoint) :=
  let hoys := match hoysIn with
    | none => ap.hoys
    | some [] => ap.hoys
    | some l => l
  match longestStateIdsOf iterOrder with
  | none => .error .valueError
  | some combIds =>
    match ap.buildResults hoys combIds with
    | .error e => .error e
    | .ok (results, ap1) =>
      let n := hoys.length
      match selectAll results logic hoys
          (List.replicate n (combIds.length - 1), List.replicate n (none : Option ℚ),
           List.replicate n (none : Option ℚ), List.replicate n (0 : ℤ)) with
      | .error e => .error e
      | .ok (bIdx, ill, dir, succ) =>
        .ok ((bIdx.map (fun i => (combIds.get? i).getD []), bIdx, ill, dir, succ), ap1)

/-- The default control logic: `args[0] > 2000`. -/
def defaultLogic (total : ℚ) (_direct : Option ℚ) (_hoy : ℕ) : Bool :=
  2000 < total

/-- The occupancy schedule actually used: `occSchedule or set(hours)` — an
omitted (or empty) schedule becomes the set of hour keys themselves, against
which the *illuminance values* are then tested. -/
def AnalysisPoint.schedOf (ap : AnalysisPoint) (schedIn : Option (List ℚ)) : List ℚ :=
  match schedIn with
  | none => ap.hoys.map (fun h => (h : ℚ))
  | some [] => ap.hoys.map (fun h => (h : ℚ))
  | some l => l

/-- Python `DAThreshhold or 300.0` (`0.0` is falsy). -/
def thrOf (thrIn : Option ℚ) : ℚ :=
  match thrIn with
  | none => 300
  | some t => if t = 0 then 300 else t

/-- One loop body of `daylightAutonomy` over `(DA, CDA, totalHourCount)`:
out-of-schedule values only decrement the count; a value meeting the threshold
bumps both counters by one; otherwise CDA gains the partial credit `v / thr`. -/
def daStep (thr : ℚ) (sched : List ℚ) (acc : ℚ × ℚ × ℕ) (v : ℚ) : ℚ × ℚ × ℕ :=
  if v ∉ sched then (acc.1, acc.2.1, acc.2.2 - 1)
  else if thr ≤ v then (acc.1 + 1, acc.2.1 + 1, acc.2.2)
  else (acc.1, acc.2.1 + v / thr, acc.2.2)

/-- Python `daylightAutonomy`: fold the combined totals of `self.hoys` through
`daStep` and divide by the final hour count (`ZeroDivisionError` when zero). -/
def AnalysisPoint.daylightAutonomy (ap : AnalysisPoint) (thrIn : Option ℚ)
    (matrixIn : Option (List (List ℤ))) (schedIn : Option (List ℚ)) :
    Except Err ((ℚ × ℚ) × AnalysisPoint) :=
  let thr := thrOf thrIn
  let hours := ap.hoys
  let sched := ap.schedOf schedIn
  match ap.combinedValuesById (some hours) matrixIn with
  | .error e => .error e
  | .ok (vals, ap1) =>
    let r := (vals.map Prod.fst).foldl (daStep thr sched) (0, 0, hours.length)
    if r.2.2 = 0 then .error .zeroDiv
    else .ok ((r.1 / (r.2.2 : ℚ), r.2.1 / (r.2.2 : ℚ)), ap1)

/-- One loop body of `usefulDaylightIlluminance` over
`(UDI, UDI_l, UDI_m, totalHourCount)`: strictly below the minimum goes to the
low bucket, strictly above the maximum to the high bucket, otherwise UDI. -/
def udiStep (uMin uMax : ℚ) (sched : List ℚ) (acc : ℚ × ℚ × ℚ × ℕ) (v : ℚ) :
    ℚ × ℚ × ℚ × ℕ :=
  if v ∉ sched then (acc.1, acc.2.1, acc.2.2.1, acc.2.2.2 - 1)
  else if v < uMin then (acc.1, acc.2.1 + 1, acc.2.2.1, acc.2.2.2)
  else if uMax < v then (acc.1, acc.2.1, acc.2.2.1 + 1, acc.2.2.2)
  else (acc.1 + 1, acc.2.1, acc.2.2.1, acc.2.2.2)

/-- Python `usefulDaylightIlluminance`: `(UDI, UDI_l, UDI_m)` ratios over the final
hour count (`ZeroDivisionError` when zero); bounds default to `(100, 2000)`. -/
def AnalysisPoint.usefulDaylightIlluminance (ap : AnalysisPoint) (boundsIn : Option (ℚ × ℚ))
    (matrixIn : Option (List (List ℤ))) (schedIn : Option (List ℚ)) :
    Except Err ((ℚ × ℚ × ℚ) × AnalysisPoint) :=
  let b := boundsIn.getD (100, 2000)
  let hours := ap.hoys
  let sched := ap.schedOf schedIn
  match ap.combinedValuesById (some hours) matrixIn with
  | .error e => .error e
  | .ok (vals, ap1) =>
    let r := (vals.map Prod.fst).foldl (udiStep b.1 b.2 sched) (0, 0, 0, hours.length)
    if r.2.2.2 = 0 then .error .zeroDiv
    else .ok ((r.1 / (r.2.2.2 : ℚ), r.2.1 / (r.2.2.2 : ℚ), r.2.2.1 / (r.2.2.2 : ℚ)), ap1)

/-- One loop body of `annualMetrics` over
`(DA, CDA, UDI, UDI_l, UDI_m, totalHourCount)`: both classifications run on
every in-schedule value. -/
def annualStep (thr uMin uMax : ℚ) (sched : List ℚ) (acc : ℚ × ℚ × ℚ × ℚ × ℚ × ℕ)
    (v : ℚ) : ℚ × ℚ × ℚ × ℚ × ℚ × ℕ :=
  if v ∉ sched then
    (acc.1, acc.2.1, acc.2.2.1, acc.2.2.2.1, acc.2.2.2.2.1, acc.2.2.2.2.2 - 1)
  else
    let da := if thr ≤ v then (acc.1 + 1, acc.2.1 + 1) else (acc.1, acc.2.1 + v / thr)
    if v < uMin then
      (da.1, da.2, acc.2.2.1, acc.2.2.2.1 + 1, acc.2.2.2.2.1, acc.2.2.2.2.2)
    else if uMax < v then
      (da.1, da.2, acc.2.2.1, acc.2.2.2.1, acc.2.2.2.2.1 + 1, acc.2.2.2.2.2)
    else
      (da.1, da.2, acc.2.2.1 + 1, acc.2.2.2.1, acc.2.2.2.2.1, acc.2.2.2.2.2)

/-- Python `annualMetrics`: `(DA, CDA, UDI, UDI_l, UDI_m)` in one pass over the same
filtered stream (`ZeroDivisionError` when the final count is zero). -/
def AnalysisPoint.annualMetrics (ap : AnalysisPoint) (thrIn : Option ℚ)
    (boundsIn : Option (ℚ × ℚ)) (matrixIn : Option (List (List ℤ)))
    (schedIn : Option (List ℚ)) :
    Except Err ((ℚ × ℚ × ℚ × ℚ × ℚ) × AnalysisPoint) :=
  let thr := thrOf thrIn
  let b := boundsIn.getD (100, 2000)
  let hours := ap.hoys
  let sched := ap.schedOf schedIn
  match ap.combinedValuesById (some hours) matrixIn with
  | .error e => .error e
  | .ok (vals, ap1) =>
    let r := (vals.map Prod.fst).foldl (annualStep thr b.1 b.2 sched) (0, 0, 0, 0, 0, hours.length)
    let cnt := r.2.2.2.2.2
    if cnt = 0 then .error .zeroDiv
    else .ok ((r.1 / (cnt : ℚ), r.2.1 / (cnt : ℚ), r.2.2.1 / (cnt : ℚ),
               r.2.2.2.1 / (cnt : ℚ), r.2.2.2.2.1 / (cnt : ℚ)), ap1)

/-- The store left behind by a reader call: the mutated store on success, the
original on an exception. -/
def storeOf {α : Type} (ap : AnalysisPoint) (r : Except Err (α × AnalysisPoint)) :
    AnalysisPoint :=
  match r with
  | .ok p => p.2
  | .error _ => ap

instance : DecidableEq (List (List ℤ) × List ℕ × List (Option ℚ) × List (Option ℚ) × List ℤ) :=
  instDecidableEqProd

instance {ε α : Type} [DecidableEq ε] [DecidableEq α] : DecidableEq (Except ε α) :=
  fun a b =>
    match a, b with
    | .ok x, .ok y => if h : x = y then .isTrue (by rw [h]) else .isFalse (by simp [h])
    | .error x, .error y => if h : x = y then .isTrue (by rw [h]) else .isFalse (by simp [h])
    | .ok _, .error _ => .isFalse (by simp)
    | .error _, .ok _ => .isFalse (by simp)

/-- Fold writing a list of `(hour, total, direct)` triples through
`setCoupledValue` for a fixed `(source, state)`. -/
def writeCoupledAll (src st : Option String) (ap : AnalysisPoint)
    (triples : List (ℕ × ℚ × ℚ)) : AnalysisPoint :=
  triples.foldl (fun a x => a.setCoupledValue (x.2.1, x.2.2) x.1 src st) ap

/-- The last `(total, direct)` pair a triple list writes for hour `h`
(`acc` carries the pair last seen so far). -/
def lastWriteAux (h : ℕ) (acc : Option (ℚ × ℚ)) (triples : List (ℕ × ℚ × ℚ)) :
    Option (ℚ × ℚ) :=
  triples.foldl (fun a x => if x.1 = h then some x.2 else a) acc

/-- The canonical store shape after coupled writes to a single
`(source, state)`: one source, one state, one hour dictionary, direct loaded. -/
def mkStore (src st : Option String) (m : HourMap) : AnalysisPoint :=
  ⟨(0, 0, 0), (0, 0, 0), [(src, [st])], [[m]], true⟩

/-- One coupled write into a bare hour dictionary. -/
def coupledIns (m : HourMap) (x : ℕ × ℚ × ℚ) : HourMap :=
  hmInsert m x.1 (some x.2.1, some x.2.2)

/-- A store with a single total-only sample `5` at hour `1` for
source `"a"`, state `"s"`. -/
def c1store : AnalysisPoint := emptyAP.setValue 5 1 (some "a") (some "s") false

/-- A store with totals `0` (hour `0`) and `300` (hour `1`) for the implicit
unnamed source and state. -/
def c2store : AnalysisPoint :=
  (emptyAP.setValue 0 0 none none false).setValue 300 1 none none false

/-- A one-hour store: total `300` at hour `0`. -/
def c3store : AnalysisPoint := emptyAP.setValue 300 0 none none false

/-- A store with a single total-only sample `8` at hour `1`. -/
def c4store : AnalysisPoint := emptyAP.setValue 8 1 (some "a") (some "s") false

/-- A one-hour store whose only hour is `5` (so hour values are not list
positions). -/
def c5store : AnalysisPoint := emptyAP.setValue 100 5 none none false

/-- A store with totals `10` (hour `0`) and `20` (hour `1`). -/
def c6store : AnalysisPoint :=
  (emptyAP.setValue 10 0 none none false).setValue 20 1 none none false

/-- Source `"a"` has only a total (`10`) at hour `0`; source `"b"` has a
coupled sample `(5, 3)` there, so `_isDirectLoaded` is true while `"a"`'s
direct slot is `None`. -/
def c7store : AnalysisPoint :=
  (emptyAP.setValue 10 0 (some "a") (some "s") false).setCoupledValue (5, 3) 0
    (some "b") (some "s")

/-- Same shape as `c7store` with different numbers (`7` and `(2, 1)`). -/
def c7w : AnalysisPoint :=
  (emptyAP.setValue 7 0 (some "a") (some "s") false).setCoupledValue (2, 1) 0
    (some "b") (some "s")

/-- Three sources with state counts `2`, `4` and `1`, in first-write order. -/
def c8store : AnalysisPoint :=
  ((((((emptyAP.setValue 1 0 (some "a") (some "a0") false).setValue
        1 0 (some "a") (some "a1") false).setValue
        1 0 (some "b") (some "b0") false).setValue
        1 0 (some "b") (some "b1") false).setValue
        1 0 (some "b") (some "b2") false).setValue
        1 0 (some "b") (some "b3") false).setValue
        1 0 (some "c") (some "c0") false

/-- The registry of `c8store` in CPython 2 hash-table iteration order: the
string hashes of the keys place them so that `iteritems()` yields the sources
as `"a"`, `"c"`, `"b"` — a permutation of the insertion (id) order. -/
def c8hashOrder : List (Option String × List (Option String)) :=
  [(some "a", [some "a0", some "a1"]),
   (some "c", [some "c0"]),
   (some "b", [some "b0", some "b1", some "b2", some "b3"])]

/-- A one-hour store (hour `0`, total `7`): with the defaulted schedule
`{0}`, the value `7` is filtered out and the hour count reaches zero. -/
def c9store : AnalysisPoint := emptyAP.setValue 7 0 none none false

/-- A one-hour store (hour `0`, total `42`), same zero-count situation. -/
def c9w : AnalysisPoint := emptyAP.setValue 42 0 none none false

/-- Claim C1.  The scalar and batch readers are meant to raise
`LookupError('invalid hour')` for a never-written hour, but every reader goes
through the `defaultdict`, so the hour is silently created as `[None, None]`
and the default `None` values are returned: no reader raises.  Evaluated at
hour `99` of a store whose only written hour is `1`. -/
theorem C1_readers_return_default_for_missing_hour :
    Except.map Prod.fst (c1store.value 99 (some "a") (some "s")) = .ok none ∧
    Except.map Prod.fst (c1store.directValue 99 (some "a") (some "s")) = .ok none ∧
    Except.map Prod.fst (c1store.coupledValue 99 (some "a") (some "s")) = .ok (none, none) ∧
    Except.map Prod.fst (c1store.values [99] (some "a") (some "s")) = .ok [none] ∧
    Except.map Prod.fst (c1store.directValues [99] (some "a") (some "s")) = .ok [none] ∧
    Except.map Prod.fst (c1store.coupledValues [99] (some "a") (some "s")) =
      .ok [(none, none)] := by
  refine ⟨by decide, by decide, by decide, by decide, by decide, by decide⟩

/-- Claim C2.  With `occSchedule` omitted the claim predicts no filtering, so
on hours `{0, 1}` with values `0` and `300` it predicts
`DA = 1/2, CDA = (0/300 + 1)/2 = 1/2`.  The code instead tests the
*illuminance values* against the defaulted schedule `set(hours) = {0, 1}`:
value `300` is filtered out, the count drops to `1`, and the result is
`(0, 0)`. -/
theorem C2_omitted_schedule_still_filters :
    Except.map Prod.fst (c2store.daylightAutonomy none none none) = .ok (0, 0) ∧
    ((0 : ℚ), (0 : ℚ)) ≠ ((1 : ℚ) / 2, (1 : ℚ) / 2) := by
  constructor
  · norm_num [c2store, emptyAP, AnalysisPoint.setValue, AnalysisPoint._createDataStructure,
      setSeries, findPos, listModify, AnalysisPoint.hoys, sortNat, insertSorted,
      AnalysisPoint.daylightAutonomy, thrOf, AnalysisPoint.schedOf, daStep,
      AnalysisPoint.combinedValuesById, AnalysisPoint.combinedValuesLoop,
      AnalysisPoint.combinedLoop, AnalysisPoint.readSampleById, addSample, defaultGet,
      hmLookup, hmInsert, pyIndex, Except.map]
  · intro h
    have h1 := congrArg Prod.fst h
    norm_num at h1

/-- Claim C4.  Readers are claimed to never mutate the store, but reading the
missing hour `99` through the `defaultdict` inserts `(99, [None, None])` into
the series: the hour key set grows from `[1]` to `[1, 99]`. -/
theorem C4_reader_mutates_store_on_missing_hour :
    (storeOf c4store (c4store.value 99 (some "a") (some "s"))).hoys = [1, 99] ∧
    c4store.hoys = [1] := by
  refine ⟨by decide, by decide⟩

/-- Claim C5.  With the always-true predicate the claim says `blindsState`
raises nothing and records the `-1` fallback; but on a store whose only hour
is `5`, the candidate rows and result lists are indexed by the hour *value*
`5` (out of range for length-1 lists), so the call raises `IndexError` before
any fallback is recorded.  (`c5store` has a single source, so its registry is
also the dict's only possible iteration order.) -/
theorem C5_blindsState_index_error_on_nonpositional_hours :
    c5store.blindsState c5store._sources (some [5]) (fun _ _ _ => true) =
      .error .indexError := by
  decide

/-- Claim C6.  For hours `[1, 0]` and matrix `[[0], [-1]]` the claim predicts
pairing row `0` with hour `1` (yield `(20, None)`) and row `1` with hour `0`
(yield `(0, None)`).  The code selects `blindsStateIds[hoy]` by the hour
*value*, producing `[(0, None), (10, None)]` instead. -/
theorem C6_rows_selected_by_hour_value :
    Except.map Prod.fst (c6store.combinedValuesById (some [1, 0]) (some [[0], [-1]])) =
      .ok [(0, none), (10, none)] ∧
    ([((0 : ℚ), (none : Option ℚ)), (10, none)] : List (ℚ × Option ℚ)) ≠
      [(20, none), (0, none)] := by
  constructor
  · norm_num [c6store, emptyAP, AnalysisPoint.setValue, AnalysisPoint._createDataStructure,
      setSeries, findPos, listModify, AnalysisPoint.hoys, sortNat, insertSorted,
      AnalysisPoint.combinedValuesById, AnalysisPoint.combinedValuesLoop,
      AnalysisPoint.combinedLoop, AnalysisPoint.readSampleById, addSample, defaultGet,
      hmLookup, hmInsert, pyIndex, Except.map]
  · norm_num

/-- Claim C7 counterexample.  `c7store` has `_isDirectLoaded = true` while
source `"a"`'s direct slot at hour `0` is `None`, so the accumulation attempts
`direct += None`; the claim then requires `direct = None`, but the swallowed
`TypeError` leaves the running direct total alone and the call returns
`(15, 3)` — a present direct component. -/
theorem C7_direct_survives_none_addition :
    Except.map Prod.fst (c7store.combinedValueById 0 (some [0, 0])) = .ok (15, some 3) ∧
    (some (3 : ℚ) : Option ℚ) ≠ none := by
  have hlit : c7store = ⟨(0, 0, 0), (0, 0, 0),
      [(some "a", [some "s"]), (some "b", [some "s"])],
      [[[(0, (some 10, none))]], [[(0, (some 5, some 3))]]], true⟩ := by decide
  constructor
  · rw [hlit]
    norm_num [AnalysisPoint.combinedValueById, AnalysisPoint.combinedLoop,
      AnalysisPoint.readSampleById, addSample, defaultGet, hmLookup, hmInsert, pyIndex,
      Except.map, listModify, List.get?, List.set]
  · decide

/-- Claim C9 counterexample.  On `c9store` the defaulted schedule filters the
only value, the in-schedule hour count reaches zero, and all three ratio
metrics raise the raw `ZeroDivisionError` — not the `ValidationError` the
claim requires (neither the `AssertionError` the code's shape checks use nor a
`ValueError`). -/
theorem C9_zero_count_raises_zero_division :
    c9store.daylightAutonomy none none none = .error .zeroDiv ∧
    c9store.usefulDaylightIlluminance none none none = .error .zeroDiv ∧
    c9store.annualMetrics none none none none = .error .zeroDiv ∧
    Err.zeroDiv ≠ Err.assertError ∧ Err.zeroDiv ≠ Err.valueError := by
  refine ⟨?_, ?_, ?_, by decide, by decide⟩
  · norm_num [c9store, emptyAP, AnalysisPoint.setValue, AnalysisPoint._createDataStructure,
      setSeries, findPos, listModify, AnalysisPoint.hoys, sortNat, insertSorted,
      AnalysisPoint.daylightAutonomy, thrOf, AnalysisPoint.schedOf, daStep,
      AnalysisPoint.combinedValuesById, AnalysisPoint.combinedValuesLoop,
      AnalysisPoint.combinedLoop, AnalysisPoint.readSampleById, addSample, defaultGet,
      hmLookup, hmInsert, pyIndex]
  · norm_num [c9store, emptyAP, AnalysisPoint.setValue, AnalysisPoint._createDataStructure,
      setSeries, findPos, listModify, AnalysisPoint.hoys, sortNat, insertSorted,
      AnalysisPoint.usefulDaylightIlluminance, AnalysisPoint.schedOf, udiStep,
      AnalysisPoint.combinedValuesById, AnalysisPoint.combinedValuesLoop,
      AnalysisPoint.combinedLoop, AnalysisPoint.readSampleById, addSample, defaultGet,
      hmLookup, hmInsert, pyIndex]
  · norm_num [c9store, emptyAP, AnalysisPoint.setValue, AnalysisPoint._createDataStructure,
      setSeries, findPos, listModify, AnalysisPoint.hoys, sortNat, insertSorted,
      AnalysisPoint.annualMetrics, thrOf, AnalysisPoint.schedOf, annualStep,
      AnalysisPoint.combinedValuesById, AnalysisPoint.combinedValuesLoop,
      AnalysisPoint.combinedLoop, AnalysisPoint.readSampleById, addSample, defaultGet,
      hmLookup, hmInsert, pyIndex]

/-- Claim C3.  An in-schedule value meeting the threshold bumps both the DA
and the CDA counter by exactly one and leaves the hour count alone; in
particular, on a one-hour series whose value `300` equals the threshold and is
in schedule, `daylightAutonomy` returns `DA = 1, CDA = 1`. -/
theorem C3_da_counts_value_equal_to_threshold :
    (∀ (thr : ℚ) (sched : List ℚ) (DA CDA : ℚ) (cnt : ℕ) (v : ℚ),
        v ∈ sched → thr ≤ v → daStep thr sched (DA, CDA, cnt) v = (DA + 1, CDA + 1, cnt)) ∧
    Except.map Prod.fst (c3store.daylightAutonomy (some 300) none (some [300])) =
      .ok (1, 1) := by
  constructor
  · intro thr sched DA CDA cnt v hv hthr
    simp [daStep, hv, hthr]
  · norm_num [c3store, emptyAP, AnalysisPoint.setValue, AnalysisPoint._createDataStructure,
      setSeries, findPos, listModify, AnalysisPoint.hoys, sortNat, insertSorted,
      AnalysisPoint.daylightAutonomy, thrOf, AnalysisPoint.schedOf, daStep,
      AnalysisPoint.combinedValuesById, AnalysisPoint.combinedValuesLoop,
      AnalysisPoint.combinedLoop, AnalysisPoint.readSampleById, addSample, defaultGet,
      hmLookup, hmInsert, pyIndex, Except.map]

/-- Witness for C3: the step property applied at
`thr = 300, sched = [300], acc = (0, 0, 1), v = 300`. -/
theorem C3_da_counts_value_equal_to_threshold_witness :
    daStep 300 [300] (0, 0, 1) 300 = (0 + 1, 0 + 1, 1) :=
  C3_da_counts_value_equal_to_threshold.1 300 [300] 0 0 1 300 (by decide) (by decide)

/-- Claim C8 counterexample.  The claim reads the combination vectors
positionally in source-id order (`[2, 4, 1]` gives last element `(1, 3, 0)`),
but the code builds them by iterating the `_sources` dict, whose Python 2
iteration order is hash-table order: for `c8store`'s keys that order is
`"a", "c", "b"` (state counts `2, 1, 4`), and the last vector is `(1, 0, 3)`,
not `(1, 3, 0)`. -/
theorem C8_hash_order_breaks_positional_reading :
    c8hashOrder.Perm c8store._sources ∧
    longestStateIdsOf c8hashOrder =
      some [[0, 0, 0], [1, 0, 1], [1, 0, 2], [1, 0, 3]] ∧
    ([1, 0, 3] : List ℤ) ≠ [1, 3, 0] := by
  refine ⟨by decide, by decide, by decide⟩

/-- Claim C8 (amended).  For whatever iteration order the `_sources` dict
yields, `longestStateIds` returns `(max over sources of stateCount - 1) + 1`
vectors, and vector `i` lists `min(stateCount - 1, i)` for each source *in
that iteration order*; the id-positional reading — for counts `[2, 4, 1]` in
id order the last element is `(1, 3, 0)` — holds exactly when the iteration
order coincides with the insertion (id) order. -/
theorem C8_longestStateIds_shape_per_iteration_order :
    (∀ (srcs : List (Option String × List (Option String))) (L : List (List ℤ)) (mx : ℤ),
        longestStateIdsOf srcs = some L →
        (srcs.map (fun s => (s.2.length : ℤ) - 1)).max? = some mx →
        L.length = (mx + 1).toNat ∧
        ∀ i r, L.get? i = some r → ∀ j sj, srcs.get? j = some sj →
          r.get? j = some (min ((sj.2.length : ℤ) - 1) (i : ℤ))) ∧
    longestStateIdsOf c8store._sources =
      some [[0, 0, 0], [1, 1, 0], [1, 2, 0], [1, 3, 0]] := by
  constructor
  · intro srcs L mx hL hmx
    rw [longestStateIdsOf, hmx] at hL
    have hL2 := (Option.some.inj hL).symm
    subst hL2
    refine ⟨by simp, ?_⟩
    intro i r hir j sj hj
    rw [List.get?_map] at hir
    cases hri : (List.range (mx + 1).toNat).get? i with
    | none => rw [hri] at hir; simp at hir
    | some k =>
      rw [hri] at hir
      have hik : k = i := by
        have hlt := (List.get?_eq_some.mp hri).1
        rw [List.get?_range (by simpa using hlt)] at hri
        exact (Option.some.inj hri).symm
      subst hik
      simp only [Option.map_some'] at hir
      have hr := (Option.some.inj hir).symm
      subst hr
      rw [List.get?_map, List.get?_map, hj]
      simp [min_comm]
  · decide

/-- Witness for C8: the shape theorem applied to `c8store`'s registry in id
order (state counts `[2, 4, 1]`, so `mx = 3`) yields the concrete length `4`. -/
theorem C8_longestStateIds_shape_per_iteration_order_witness :
    ([[0, 0, 0], [1, 1, 0], [1, 2, 0], [1, 3, 0]] : List (List ℤ)).length =
      ((3 : ℤ) + 1).toNat :=
  (C8_longestStateIds_shape_per_iteration_order.1 c8store._sources _ 3
    C8_longestStateIds_shape_per_iteration_order.2 (by decide)).1

/-- A successful `combinedValuesLoop` yields exactly one pair per listed hour. -/
theorem combinedValuesLoop_length (matrix : List (List ℤ)) (dv : Option ℚ) :
    ∀ (hoys : List ℕ) (ap : AnalysisPoint) (vals : List (ℚ × Option ℚ))
      (ap' : AnalysisPoint),
    AnalysisPoint.combinedValuesLoop matrix dv ap hoys = .ok (vals, ap') →
    vals.length = hoys.length := by
  intro hoys
  induction hoys with
  | nil =>
    intro ap vals ap' h
    simp only [AnalysisPoint.combinedValuesLoop] at h
    simp only [Except.ok.injEq, Prod.mk.injEq] at h
    simp [← h.1]
  | cons hoy rest ih =>
    intro ap vals ap' h
    simp only [AnalysisPoint.combinedValuesLoop] at h
    split at h
    · simp at h
    · split at h
      · simp at h
      · split at h
        · simp at h
        · rename_i pairs2 heq2
          simp only [Except.ok.injEq, Prod.mk.injEq] at h
          have hlen := ih _ _ _ heq2
          rw [← h.1, List.length_cons, hlen]
          simp

/-- On input `some ap.hoys`, a successful `combinedValuesById` yields exactly
one pair per hour of the store. -/
theorem combinedValuesById_self_length (ap : AnalysisPoint)
    (matrixIn : Option (List (List ℤ))) (vals : List (ℚ × Option ℚ))
    (ap' : AnalysisPoint)
    (h : ap.combinedValuesById (some ap.hoys) matrixIn = .ok (vals, ap')) :
    vals.length = ap.hoys.length := by
  rw [AnalysisPoint.combinedValuesById.eq_def] at h
  cases hh : ap.hoys with
  | nil =>
    rw [hh] at h
    simp only at h
    split at h
    · simp at h
    · exact combinedValuesLoop_length _ _ _ _ _ _ h
  | cons a t =>
    rw [hh] at h
    simp only at h
    split at h
    · simp at h
    · exact combinedValuesLoop_length _ _ _ _ _ _ h

/-- The final `totalHourCount` of the `daylightAutonomy` fold counts exactly
the values that pass the schedule filter. -/
theorem daStep_foldl_count (thr : ℚ) (sched : List ℚ) :
    ∀ (l : List ℚ) (k : ℕ) (DA CDA : ℚ),
    (l.foldl (daStep thr sched) (DA, CDA, l.length + k)).2.2 =
      l.countP (fun v => decide (v ∈ sched)) + k := by
  intro l
  induction l with
  | nil => intro k DA CDA; simp [List.countP, List.countP.go]
  | cons v t ih =>
    intro k DA CDA
    rw [List.foldl_cons]
    by_cases hv : v ∈ sched
    · have hc : (v :: t).length + k = t.length + (k + 1) := by
        simp [List.length_cons]
        omega
      rw [hc]
      by_cases hthr : thr ≤ v
      · rw [show daStep thr sched (DA, CDA, t.length + (k + 1)) v
            = (DA + 1, CDA + 1, t.length + (k + 1)) from by simp [daStep, hv, hthr]]
        rw [ih (k + 1), List.countP_cons]
        simp [hv]
        omega
      · rw [show daStep thr sched (DA, CDA, t.length + (k + 1)) v
            = (DA, CDA + v / thr, t.length + (k + 1)) from by simp [daStep, hv, hthr]]
        rw [ih (k + 1), List.countP_cons]
        simp [hv]
        omega
    · rw [show daStep thr sched (DA, CDA, (v :: t).length + k) v
          = (DA, CDA, t.length + k) from by
        simp [daStep, hv]]
      rw [ih k, List.countP_cons]
      simp [hv]

/-- Python `daylightAutonomy` hits the raw division-by-zero error whenever the
combined stream succeeds but no value passes the schedule filter. -/
theorem daylightAutonomy_zero_count (ap : AnalysisPoint) (thrIn : Option ℚ)
    (matrixIn : Option (List (List ℤ))) (schedIn : Option (List ℚ))
    (vals : List (ℚ × Option ℚ)) (ap' : AnalysisPoint)
    (hc : ap.combinedValuesById (some ap.hoys) matrixIn = .ok (vals, ap'))
    (h0 : (vals.map Prod.fst).countP (fun v => decide (v ∈ ap.schedOf schedIn)) = 0) :
    ap.daylightAutonomy thrIn matrixIn schedIn = .error .zeroDiv := by
  have hlen : vals.length = ap.hoys.length :=
    combinedValuesById_self_length ap matrixIn vals ap' hc
  rw [AnalysisPoint.daylightAutonomy.eq_def]
  simp only [hc]
  have hinit : ap.hoys.length = (vals.map Prod.fst).length + 0 := by simp [hlen]
  have hcnt : ((vals.map Prod.fst).foldl (daStep (thrOf thrIn) (ap.schedOf schedIn))
      (0, 0, ap.hoys.length)).2.2 = 0 := by
    rw [hinit, daStep_foldl_count, h0]
  simp [hcnt]

/-- The final `totalHourCount` of the `usefulDaylightIlluminance` fold counts
exactly the values that pass the schedule filter. -/
theorem udiStep_foldl_count (uMin uMax : ℚ) (sched : List ℚ) :
    ∀ (l : List ℚ) (k : ℕ) (U Ul Um : ℚ),
    (l.foldl (udiStep uMin uMax sched) (U, Ul, Um, l.length + k)).2.2.2 =
      l.countP (fun v => decide (v ∈ sched)) + k := by
  intro l
  induction l with
  | nil => intro k U Ul Um; simp [List.countP, List.countP.go]
  | cons v t ih =>
    intro k U Ul Um
    rw [List.foldl_cons]
    by_cases hv : v ∈ sched
    · have hc : (v :: t).length + k = t.length + (k + 1) := by
        simp [List.length_cons]
        omega
      rw [hc]
      by_cases hmin : v < uMin
      · rw [show udiStep uMin uMax sched (U, Ul, Um, t.length + (k + 1)) v
            = (U, Ul + 1, Um, t.length + (k + 1)) from by simp [udiStep, hv, hmin]]
        rw [ih (k + 1), List.countP_cons]
        simp [hv]
        omega
      · by_cases hmax : uMax < v
        · rw [show udiStep uMin uMax sched (U, Ul, Um, t.length + (k + 1)) v
              = (U, Ul, Um + 1, t.length + (k + 1)) from by simp [udiStep, hv, hmin, hmax]]
          rw [ih (k + 1), List.countP_cons]
          simp [hv]
          omega
        · rw [show udiStep uMin uMax sched (U, Ul, Um, t.length + (k + 1)) v
              = (U + 1, Ul, Um, t.length + (k + 1)) from by simp [udiStep, hv, hmin, hmax]]
          rw [ih (k + 1), List.countP_cons]
          simp [hv]
          omega
    · rw [show udiStep uMin uMax sched (U, Ul, Um, (v :: t).length + k) v
          = (U, Ul, Um, t.length + k) from by simp [udiStep, hv]]
      rw [ih k, List.countP_cons]
      simp [hv]

/-- An in-schedule value never changes the hour count of the annual fold. -/
theorem annualStep_count_inSched (thr uMin uMax : ℚ) (sched : List ℚ)
    (acc : ℚ × ℚ × ℚ × ℚ × ℚ × ℕ) (v : ℚ) (hv : v ∈ sched) :
    (annualStep thr uMin uMax sched acc v).2.2.2.2.2 = acc.2.2.2.2.2 := by
  by_cases hmin : v < uMin
  · simp [annualStep, hv, hmin]
  · by_cases hmax : uMax < v
    · simp [annualStep, hv, hmin, hmax]
    · simp [annualStep, hv, hmin, hmax]

/-- The final `totalHourCount` of the `annualMetrics` fold counts exactly the
values that pass the schedule filter. -/
theorem annualStep_foldl_count (thr uMin uMax : ℚ) (sched : List ℚ) :
    ∀ (l : List ℚ) (k : ℕ) (DA CDA U Ul Um : ℚ),
    (l.foldl (annualStep thr uMin uMax sched) (DA, CDA, U, Ul, Um, l.length + k)).2.2.2.2.2 =
      l.countP (fun v => decide (v ∈ sched)) + k := by
  intro l
  induction l with
  | nil => intro k DA CDA U Ul Um; simp [List.countP, List.countP.go]
  | cons v t ih =>
    intro k DA CDA U Ul Um
    rw [List.foldl_cons]
    by_cases hv : v ∈ sched
    · have hc : (v :: t).length + k = t.length + (k + 1) := by
        simp [List.length_cons]
        omega
      rw [hc]
      set a := annualStep thr uMin uMax sched (DA, CDA, U, Ul, Um, t.length + (k + 1)) v
        with ha
      have h6 : a.2.2.2.2.2 = t.length + (k + 1) :=
        annualStep_count_inSched thr uMin uMax sched _ v hv
      have haeq : a = (a.1, a.2.1, a.2.2.1, a.2.2.2.1, a.2.2.2.2.1, t.length + (k + 1)) := by
        rw [← h6]
      rw [haeq, ih (k + 1), List.countP_cons]
      simp [hv]
      omega
    · rw [show annualStep thr uMin uMax sched (DA, CDA, U, Ul, Um, (v :: t).length + k) v
          = (DA, CDA, U, Ul, Um, t.length + k) from by simp [annualStep, hv]]
      rw [ih k, List.countP_cons]
      simp [hv]

/-- Python `usefulDaylightIlluminance` hits the raw division-by-zero error whenever
the combined stream succeeds but no value passes the schedule filter. -/
theorem usefulDaylightIlluminance_zero_count (ap : AnalysisPoint)
    (boundsIn : Option (ℚ × ℚ)) (matrixIn : Option (List (List ℤ)))
    (schedIn : Option (List ℚ)) (vals : List (ℚ × Option ℚ)) (ap' : AnalysisPoint)
    (hc : ap.combinedValuesById (some ap.hoys) matrixIn = .ok (vals, ap'))
    (h0 : (vals.map Prod.fst).countP (fun v => decide (v ∈ ap.schedOf schedIn)) = 0) :
    ap.usefulDaylightIlluminance boundsIn matrixIn schedIn = .error .zeroDiv := by
  have hlen : vals.length = ap.hoys.length :=
    combinedValuesById_self_length ap matrixIn vals ap' hc
  rw [AnalysisPoint.usefulDaylightIlluminance.eq_def]
  simp only [hc]
  have hinit : ap.hoys.length = (vals.map Prod.fst).length + 0 := by simp [hlen]
  have hcnt : ((vals.map Prod.fst).foldl
      (udiStep (boundsIn.getD (100, 2000)).1 (boundsIn.getD (100, 2000)).2
        (ap.schedOf schedIn)) (0, 0, 0, ap.hoys.length)).2.2.2 = 0 := by
    rw [hinit, udiStep_foldl_count, h0]
  simp [hcnt]

/-- Python `annualMetrics` hits the raw division-by-zero error whenever the combined
stream succeeds but no value passes the schedule filter. -/
theorem annualMetrics_zero_count (ap : AnalysisPoint) (thrIn : Option ℚ)
    (boundsIn : Option (ℚ × ℚ)) (matrixIn : Option (List (List ℤ)))
    (schedIn : Option (List ℚ)) (vals : List (ℚ × Option ℚ)) (ap' : AnalysisPoint)
    (hc : ap.combinedValuesById (some ap.hoys) matrixIn = .ok (vals, ap'))
    (h0 : (vals.map Prod.fst).countP (fun v => decide (v ∈ ap.schedOf schedIn)) = 0) :
    ap.annualMetrics thrIn boundsIn matrixIn schedIn = .error .zeroDiv := by
  have hlen : vals.length = ap.hoys.length :=
    combinedValuesById_self_length ap matrixIn vals ap' hc
  rw [AnalysisPoint.annualMetrics.eq_def]
  simp only [hc]
  have hinit : ap.hoys.length = (vals.map Prod.fst).length + 0 := by simp [hlen]
  have hcnt : ((vals.map Prod.fst).foldl
      (annualStep (thrOf thrIn) (boundsIn.getD (100, 2000)).1
        (boundsIn.getD (100, 2000)).2 (ap.schedOf schedIn))
      (0, 0, 0, 0, 0, ap.hoys.length)).2.2.2.2.2 = 0 := by
    rw [hinit, annualStep_foldl_count, h0]
  simp [hcnt]

/-- Claim C9 (amended).  When the in-schedule hour count reaches zero, the
three ratio metrics fail with the propagated `ZeroDivisionError`; no
`ValidationError` is raised and no value is returned. -/
theorem C9_zero_inschedule_count_propagates_zero_division :
    (∀ (ap : AnalysisPoint) (thrIn : Option ℚ) (matrixIn : Option (List (List ℤ)))
       (schedIn : Option (List ℚ)) (vals : List (ℚ × Option ℚ)) (ap' : AnalysisPoint),
       ap.combinedValuesById (some ap.hoys) matrixIn = .ok (vals, ap') →
       (vals.map Prod.fst).countP (fun v => decide (v ∈ ap.schedOf schedIn)) = 0 →
       ap.daylightAutonomy thrIn matrixIn schedIn = .error .zeroDiv) ∧
    (∀ (ap : AnalysisPoint) (boundsIn : Option (ℚ × ℚ)) (matrixIn : Option (List (List ℤ)))
       (schedIn : Option (List ℚ)) (vals : List (ℚ × Option ℚ)) (ap' : AnalysisPoint),
       ap.combinedValuesById (some ap.hoys) matrixIn = .ok (vals, ap') →
       (vals.map Prod.fst).countP (fun v => decide (v ∈ ap.schedOf schedIn)) = 0 →
       ap.usefulDaylightIlluminance boundsIn matrixIn schedIn = .error .zeroDiv) ∧
    (∀ (ap : AnalysisPoint) (thrIn : Option ℚ) (boundsIn : Option (ℚ × ℚ))
       (matrixIn : Option (List (List ℤ))) (schedIn : Option (List ℚ))
       (vals : List (ℚ × Option ℚ)) (ap' : AnalysisPoint),
       ap.combinedValuesById (some ap.hoys) matrixIn = .ok (vals, ap') →
       (vals.map Prod.fst).countP (fun v => decide (v ∈ ap.schedOf schedIn)) = 0 →
       ap.annualMetrics thrIn boundsIn matrixIn schedIn = .error .zeroDiv) :=
  ⟨fun ap thrIn matrixIn schedIn vals ap' hc h0 =>
      daylightAutonomy_zero_count ap thrIn matrixIn schedIn vals ap' hc h0,
   fun ap boundsIn matrixIn schedIn vals ap' hc h0 =>
      usefulDaylightIlluminance_zero_count ap boundsIn matrixIn schedIn vals ap' hc h0,
   fun ap thrIn boundsIn matrixIn schedIn vals ap' hc h0 =>
      annualMetrics_zero_count ap thrIn boundsIn matrixIn schedIn vals ap' hc h0⟩

/-- Witness for C9: on `c9w` the only value `42` fails the defaulted schedule
test (`42 ∉ {0}`), the count reaches zero, and all three metrics fail with the
division error. -/
theorem C9_zero_inschedule_count_propagates_zero_division_witness :
    c9w.daylightAutonomy none none none = .error .zeroDiv ∧
    c9w.usefulDaylightIlluminance none none none = .error .zeroDiv ∧
    c9w.annualMetrics none none none none = .error .zeroDiv := by
  have hc : c9w.combinedValuesById (some c9w.hoys) none = .ok ([(42, none)], c9w) := by
    norm_num [c9w, emptyAP, AnalysisPoint.setValue, AnalysisPoint._createDataStructure,
      setSeries, findPos, listModify, AnalysisPoint.hoys, sortNat, insertSorted,
      AnalysisPoint.combinedValuesById, AnalysisPoint.combinedValuesLoop,
      AnalysisPoint.combinedLoop, AnalysisPoint.readSampleById, addSample, defaultGet,
      hmLookup, hmInsert, pyIndex]
  have h0 : (([((42 : ℚ), (none : Option ℚ))]).map Prod.fst).countP
      (fun v => decide (v ∈ c9w.schedOf none)) = 0 := by
    norm_num [AnalysisPoint.schedOf, c9w, emptyAP, AnalysisPoint.setValue,
      AnalysisPoint._createDataStructure, setSeries, findPos, listModify,
      AnalysisPoint.hoys, sortNat, insertSorted, List.countP, List.countP.go,
      hmLookup, hmInsert, defaultGet]
  exact ⟨C9_zero_inschedule_count_propagates_zero_division.1 c9w none none none _ _ hc h0,
    C9_zero_inschedule_count_propagates_zero_division.2.1 c9w none none none _ _ hc h0,
    C9_zero_inschedule_count_propagates_zero_division.2.2 c9w none none none none _ _ hc h0⟩

/-- The helper `addSample` never turns a present running direct total into an absent one
or vice versa. -/
theorem addSample_isSome (acc : ℚ × Option ℚ) (t d : Option ℚ) :
    (addSample acc t d).2.isSome = acc.2.isSome := by
  obtain ⟨a1, a2⟩ := acc
  cases t with
  | none => rfl
  | some tv => cases a2 <;> cases d <;> simp [addSample]

/-- Through a successful `combinedLoop`, the direct accumulator stays present
or absent exactly as it started. -/
theorem combinedLoop_direct_isSome (hoy : ℕ) :
    ∀ (ids : List ℤ) (ap : AnalysisPoint) (acc : ℚ × Option ℚ) (sid : ℕ)
      (res : ℚ × Option ℚ) (ap' : AnalysisPoint),
    AnalysisPoint.combinedLoop hoy ap acc sid ids = .ok (res, ap') →
    res.2.isSome = acc.2.isSome := by
  intro ids
  induction ids with
  | nil =>
    intro ap acc sid res ap' h
    simp only [AnalysisPoint.combinedLoop, Except.ok.injEq, Prod.mk.injEq] at h
    rw [← h.1]
  | cons i rest ih =>
    intro ap acc sid res ap' h
    simp only [AnalysisPoint.combinedLoop] at h
    split at h
    · have hrec := ih _ _ _ _ _ h
      rw [hrec, addSample_isSome]
    · split at h
      · simp at h
      · have hrec := ih _ _ _ _ _ h
        rw [hrec, addSample_isSome]

/-- The loop started from the `_isDirectLoaded`-dependent initial accumulator
ends with an absent direct exactly when `_isDirectLoaded` is false. -/
theorem combinedLoop_init_direct_iff (ap : AnalysisPoint) (hoy : ℕ) (ids : List ℤ)
    (res : ℚ × Option ℚ) (ap' : AnalysisPoint)
    (h : AnalysisPoint.combinedLoop hoy ap
      (0, if ap._isDirectLoaded = true then some 0 else none) 0 ids = .ok (res, ap')) :
    (res.2 = none ↔ ap._isDirectLoaded = false) := by
  have hs := combinedLoop_direct_isSome hoy ids ap _ 0 res ap' h
  cases hload : ap._isDirectLoaded with
  | true =>
    rw [hload] at hs
    have hsome : res.2.isSome = true := by simpa using hs
    constructor
    · intro hn; rw [hn] at hsome; simp at hsome
    · intro hf; simp at hf
  | false =>
    rw [hload] at hs
    have hnone : res.2.isSome = false := by simpa using hs
    constructor
    · intro _; rfl
    · intro _
      cases hres : res.2 with
      | none => rfl
      | some dv => rw [hres] at hnone; simp at hnone

/-- Python `combinedValueById` reports an absent direct component exactly when
`_isDirectLoaded` is false. -/
theorem combinedValueById_direct_none_iff (ap : AnalysisPoint) (hoy : ℕ)
    (idsIn : Option (List ℤ)) (res : ℚ × Option ℚ) (ap' : AnalysisPoint)
    (h : ap.combinedValueById hoy idsIn = .ok (res, ap')) :
    (res.2 = none ↔ ap._isDirectLoaded = false) := by
  rw [AnalysisPoint.combinedValueById.eq_def] at h
  split at h
  all_goals
    simp only at h
    split at h
    · simp at h
    · exact combinedLoop_init_direct_iff ap hoy _ res ap' h

/-- The helper `listModify` leaves every other position untouched. -/
theorem listModify_get?_ne {α : Type} (l : List α) (i j : ℕ) (f : α → α) (h : i ≠ j) :
    (listModify l i f).get? j = l.get? j := by
  rw [listModify]
  cases hl : l.get? i with
  | none => rfl
  | some x => exact List.get?_set_ne _ _ h

/-- The combined accumulation never looks at (or touches) the data of a source
whose state id is `-1`: two stores agreeing on every non-excluded source
produce identical results. -/
theorem combinedLoop_congr (hoy : ℕ) :
    ∀ (ids : List ℤ) (sid : ℕ) (acc : ℚ × Option ℚ) (ap₁ ap₂ : AnalysisPoint),
    (∀ k, ids.get? k ≠ some (-1) →
      ap₁._values.get? (sid + k) = ap₂._values.get? (sid + k)) →
    Except.map Prod.fst (AnalysisPoint.combinedLoop hoy ap₁ acc sid ids) =
      Except.map Prod.fst (AnalysisPoint.combinedLoop hoy ap₂ acc sid ids) := by
  intro ids
  induction ids with
  | nil => intro sid acc ap₁ ap₂ hagree; simp [AnalysisPoint.combinedLoop, Except.map]
  | cons i rest ih =>
    intro sid acc ap₁ ap₂ hagree
    simp only [AnalysisPoint.combinedLoop]
    by_cases hi : i = -1
    · simp only [if_pos hi]
      apply ih
      intro k hk
      have hg := hagree (k + 1) (by simpa using hk)
      rw [show sid + (k + 1) = sid + 1 + k from by omega] at hg
      exact hg
    · simp only [if_neg hi]
      have h0 : ap₁._values.get? sid = ap₂._values.get? sid := by
        have hg := hagree 0 (by simp [hi])
        simpa using hg
      rw [AnalysisPoint.readSampleById.eq_def, AnalysisPoint.readSampleById.eq_def, h0]
      cases hv : ap₂._values.get? sid with
      | none => rfl
      | some sts =>
        simp only
        cases hpi : pyIndex sts.length i with
        | none => rfl
        | some si =>
          simp only
          cases hms : sts.get? si with
          | none => rfl
          | some m =>
            simp only
            apply ih
            intro k hk
            have hg := hagree (k + 1) (by simpa using hk)
            rw [show sid + (k + 1) = sid + 1 + k from by omega] at hg
            simp only
            rw [listModify_get?_ne _ _ _ _ (by omega), listModify_get?_ne _ _ _ _ (by omega)]
            exact hg

/-- Claim C7 (amended).  (1) `combinedValueById` reports the direct component
as `None` exactly when `_isDirectLoaded` is false — an attempted addition of an
absent direct value is swallowed and leaves the running (present) direct total
in place, it does not null it.  (2) A state id of `-1` contributes exactly
`(0, 0)`: the result is independent of the excluded source's stored data. -/
theorem C7_direct_none_iff_not_loaded_and_minus1_excluded :
    (∀ (ap : AnalysisPoint) (hoy : ℕ) (idsIn : Option (List ℤ))
       (res : ℚ × Option ℚ) (ap' : AnalysisPoint),
       ap.combinedValueById hoy idsIn = .ok (res, ap') →
       (res.2 = none ↔ ap._isDirectLoaded = false)) ∧
    (∀ (ap₁ ap₂ : AnalysisPoint) (hoy : ℕ) (ids : List ℤ) (j : ℕ),
       ids.get? j = some (-1) →
       ap₁._isDirectLoaded = ap₂._isDirectLoaded →
       ap₁._sources.length = ap₂._sources.length →
       (∀ k, ids.get? k ≠ some (-1) → ap₁._values.get? k = ap₂._values.get? k) →
       Except.map Prod.fst (ap₁.combinedValueById hoy (some ids)) =
         Except.map Prod.fst (ap₂.combinedValueById hoy (some ids))) := by
  constructor
  · exact fun ap hoy idsIn res ap' h => combinedValueById_direct_none_iff ap hoy idsIn res ap' h
  · intro ap₁ ap₂ hoy ids j hj hd hlen hagree
    cases ids with
    | nil => simp at hj
    | cons a t =>
      rw [AnalysisPoint.combinedValueById.eq_def, AnalysisPoint.combinedValueById.eq_def]
      simp only
      rw [hlen, hd]
      by_cases hassert : ap₂._sources.length ≠ (a :: t).length
      · rw [if_pos hassert, if_pos hassert]
      · rw [if_neg hassert, if_neg hassert]
        exact combinedLoop_congr hoy (a :: t) 0 _ ap₁ ap₂ (by simpa using hagree)

/-- Witness for C7: on `c7w` (direct loaded, source `"a"` direct absent) the
combined read returns `(9, some 1)`, and part (1) of the theorem instantiates
to the true equivalence `some 1 = none ↔ true = false`. -/
theorem C7_direct_none_iff_not_loaded_and_minus1_excluded_witness :
    (((9 : ℚ), (some (1 : ℚ) : Option ℚ)).2 = none ↔ c7w._isDirectLoaded = false) :=
  C7_direct_none_iff_not_loaded_and_minus1_excluded.1 c7w 0 (some [0, 0]) (9, some 1) c7w
    (by
      have hlit : c7w = ⟨(0, 0, 0), (0, 0, 0),
          [(some "a", [some "s"]), (some "b", [some "s"])],
          [[[(0, (some 7, none))]], [[(0, (some 2, some 1))]]], true⟩ := by decide
      rw [hlit]
      norm_num [AnalysisPoint.combinedValueById, AnalysisPoint.combinedLoop,
        AnalysisPoint.readSampleById, addSample, defaultGet, hmLookup, hmInsert, pyIndex,
        listModify, List.get?, List.set])

/-- Looking up the hour just inserted gives back the inserted sample. -/
theorem hmLookup_insert_self (m : HourMap) (h : ℕ) (v : Sample) :
    hmLookup (hmInsert m h v) h = some v := by
  induction m with
  | nil => simp [hmInsert, hmLookup]
  | cons p rest ih =>
    by_cases hp : p.1 = h
    · simp [hmInsert, hmLookup, hp]
    · simp [hmInsert, hmLookup, hp, ih]

/-- Inserting at a different hour leaves a lookup unchanged. -/
theorem hmLookup_insert_ne (m : HourMap) (h' h : ℕ) (v : Sample) (hne : h' ≠ h) :
    hmLookup (hmInsert m h' v) h = hmLookup m h := by
  induction m with
  | nil => simp [hmInsert, hmLookup, hne]
  | cons p rest ih =>
    by_cases hp : p.1 = h'
    · simp [hmInsert, hmLookup, hp, hne]
    · simp only [hmInsert, hmLookup, if_neg hp]
      by_cases hph : p.1 = h
      · simp [hph]
      · simp [hph, ih]

/-- The first coupled write on a fresh point creates the canonical one-source,
one-state store. -/
theorem setCoupledValue_empty (src st : Option String) (t d : ℚ) (h : ℕ) :
    emptyAP.setCoupledValue (t, d) h src st = mkStore src st (hmInsert [] h (some t, some d)) := by
  simp [AnalysisPoint.setCoupledValue, AnalysisPoint._createDataStructure, emptyAP,
    setSeries, listModify, findPos, mkStore, List.get?, List.set]

/-- A coupled write on the canonical store just updates its hour dictionary. -/
theorem setCoupledValue_mk (src st : Option String) (m : HourMap) (t d : ℚ) (h : ℕ) :
    (mkStore src st m).setCoupledValue (t, d) h src st
      = mkStore src st (hmInsert m h (some t, some d)) := by
  simp [AnalysisPoint.setCoupledValue, AnalysisPoint._createDataStructure, mkStore,
    setSeries, listModify, findPos, List.get?, List.set]

/-- Folding coupled writes over the canonical store folds the inserts over its
hour dictionary. -/
theorem writeCoupledAll_mk (src st : Option String) :
    ∀ (l : List (ℕ × ℚ × ℚ)) (m : HourMap),
    writeCoupledAll src st (mkStore src st m) l = mkStore src st (l.foldl coupledIns m) := by
  intro l
  induction l with
  | nil => intro m; rfl
  | cons x rest ih =>
    intro m
    show writeCoupledAll src st ((mkStore src st m).setCoupledValue (x.2.1, x.2.2) x.1 src st)
        rest = _
    rw [setCoupledValue_mk, ih]
    rfl

/-- After folding the inserts, the hour holds the pair of the last triple
written for it (given the incoming accumulator is consistent with `m`). -/
theorem foldl_coupledIns_lookup (h : ℕ) :
    ∀ (l : List (ℕ × ℚ × ℚ)) (m : HourMap) (acc : Option (ℚ × ℚ)) (p : ℚ × ℚ),
    (∀ q : ℚ × ℚ, acc = some q → hmLookup m h = some (some q.1, some q.2)) →
    lastWriteAux h acc l = some p →
    hmLookup (l.foldl coupledIns m) h = some (some p.1, some p.2) := by
  intro l
  induction l with
  | nil =>
    intro m acc p hacc hw
    exact hacc p hw
  | cons x rest ih =>
    intro m acc p hacc hw
    rw [List.foldl_cons]
    refine ih (coupledIns m x) (if x.1 = h then some x.2 else acc) p ?_ hw
    intro q hq
    by_cases hx : x.1 = h
    · rw [if_pos hx] at hq
      have hqx : q = x.2 := (Option.some.inj hq).symm
      subst hqx
      rw [coupledIns, hx]
      exact hmLookup_insert_self m h _
    · rw [if_neg hx] at hq
      rw [coupledIns, hmLookup_insert_ne m x.1 h _ hx]
      exact hacc q hq

/-- Reading a present hour off the canonical store returns its sample and
leaves the store unchanged. -/
theorem coupledValue_mk (src st : Option String) (m : HourMap) (h : ℕ) (v : Sample)
    (hst : isDigitStr st = false) (hv : hmLookup m h = some v) :
    (mkStore src st m).coupledValue h src st = .ok (v, mkStore src st m) := by
  simp [AnalysisPoint.coupledValue, AnalysisPoint.resolveSeries, AnalysisPoint.sourceId,
    AnalysisPoint.blindStateId, hst, findPos, mkStore, defaultGet, hv, setSeries,
    listModify, List.get?, List.set, Bind.bind, Except.bind, Pure.pure, Except.pure]

/-- Claim C10 counterexample.  For the digit-string state name `"7"` the
write path registers the state at index `0`, but the read path's
`blindStateId` reinterprets `"7"` verbatim as the numeric index `7`, and
`coupledValue` raises the raw `IndexError` instead of returning the written
pair: the round trip fails as universally stated. -/
theorem C10_digit_state_name_breaks_roundtrip :
    Except.map Prod.fst ((writeCoupledAll (some "w") (some "7") emptyAP
        [(1, 10, 2)]).coupledValue 1 (some "w") (some "7")) = .error .indexError ∧
    (Except.error Err.indexError : Except Err Sample) ≠ .ok (some 10, some 2) := by
  refine ⟨by decide, by decide⟩

/-- Claim C10 (amended).  Writing any sequence of `(hour, total, direct)`
triples with `setCoupledValue` for a fixed `(source, state)` on a fresh point
and then reading an hour with `coupledValue` returns exactly the pair last
written for that hour, provided the state name is not a digit string (a
digit-string name is reinterpreted by `blindStateId` as a numeric state index
on the read path, breaking the round trip when out of range). -/
theorem C10_coupled_roundtrip (src st : Option String) (hst : isDigitStr st = false)
    (triples : List (ℕ × ℚ × ℚ)) (h : ℕ) (t d : ℚ)
    (hw : lastWriteAux h none triples = some (t, d)) :
    Except.map Prod.fst ((writeCoupledAll src st emptyAP triples).coupledValue h src st)
      = .ok (some t, some d) := by
  cases triples with
  | nil => simp [lastWriteAux] at hw
  | cons x rest =>
    have h1 : writeCoupledAll src st emptyAP (x :: rest)
        = mkStore src st ((x :: rest).foldl coupledIns []) := by
      show writeCoupledAll src st (emptyAP.setCoupledValue (x.2.1, x.2.2) x.1 src st) rest = _
      rw [setCoupledValue_empty, writeCoupledAll_mk]
      rfl
    have h2 : hmLookup ((x :: rest).foldl coupledIns []) h = some (some t, some d) :=
      foldl_coupledIns_lookup h (x :: rest) [] none (t, d) (by intro q hq; simp at hq) hw
    rw [h1, coupledValue_mk src st _ h (some t, some d) hst h2]
    rfl

/-- Witness for C10: write `(1, 10, 2)` then `(1, 11, 3)` for
`("w", "s0")`; reading hour `1` returns the later pair `(11, 3)`. -/
theorem C10_coupled_roundtrip_witness :
    Except.map Prod.fst ((writeCoupledAll (some "w") (some "s0") emptyAP
        [(1, 10, 2), (1, 11, 3)]).coupledValue 1 (some "w") (some "s0"))
      = .ok (some 11, some 3) :=
  C10_coupled_roundtrip (some "w") (some "s0") (by decide) [(1, 10, 2), (1, 11, 3)] 1 11 3
    (by decide)

